import Mathlib

/-!
Verification of the contract-clause review pipeline (`partner_agent_dify.py`).

The Python source is embedded shallowly:
* `read_word_file`'s text cleaning (lines 41-63) over the raw paragraph list
  becomes `readWordText`; the three `re.sub` passes become `cleanPara`
  (per-paragraph collapse of control/whitespace runs plus strip), `repP`
  (runs of four or more periods to one space) and `collapseNl`
  (runs of three or more newlines to two).
* `process_excel_row` (lines 66-122) becomes `processExcelRow`; the outcome of
  the single `requests.post` call is an explicit `HttpOutcome` argument and
  exceptions are `Except.error` values.  The returned `RowAttempt` also records
  how many network calls were made and which request body was posted.
* `convert_list_to_str` (lines 124-129) keeps its name; decoded JSON payloads
  are modelled by `JVal` and `json.loads` by a fuelled recursive-descent
  parser (`jsonLoads`); JSON numbers keep their literal text.
* `process_documents` (lines 132-183) becomes `docLoop` / `processDocumentsE`,
  with spreadsheet reading, document reading and per-row network outcomes as
  oracles; `new_wb.save` is modelled as collecting `(path, table)` pairs.
* the `__main__` guard (lines 186-191) becomes `runMain`.
-/

/-! ### Text normalisation (`read_word_file`, lines 41-63) -/

/-- Python whitespace characters matched by `\s` (beyond the `\x00-\x1F` range,
which the regex class in line 50 lists separately). -/
def pySpace (c : Char) : Bool :=
  c == ' ' || c.toNat == 0x85 || c.toNat == 0xA0 || c.toNat == 0x1680 ||
  (decide (0x2000 ≤ c.toNat) && decide (c.toNat ≤ 0x200A)) ||
  c.toNat == 0x2028 || c.toNat == 0x2029 || c.toNat == 0x202F ||
  c.toNat == 0x205F || c.toNat == 0x3000

/-- The character class `[\x00-\x1F　\s]` of line 50. -/
def isCtrlWs (c : Char) : Bool :=
  decide (c.toNat ≤ 31) || pySpace c

/-- Collapse adjacent spaces (after every class member was mapped to a space,
this realises `re.sub(r'[...]+', ' ', text)`). -/
def dedupSp : List Char → List Char
  | [] => []
  | a :: rest =>
    match rest with
    | [] => [a]
    | b :: _ => if a == ' ' && b == ' ' then dedupSp rest else a :: dedupSp rest

def dropSp (cs : List Char) : List Char := cs.dropWhile (fun c => c == ' ')

/-- Python `str.strip()`; after the collapse the only whitespace left is `' '`. -/
def stripSp (cs : List Char) : List Char :=
  ((dropSp cs).reverse |> dropSp).reverse

/-- Line 50: `re.sub(r'[\x00-\x1F　\s]+', ' ', para.text).strip()`. -/
def cleanPara (cs : List Char) : List Char :=
  stripSp (dedupSp (cs.map (fun c => if isCtrlWs c then ' ' else c)))

/-- Lines 48-52: clean every paragraph and keep the non-empty results. -/
def cleanedParas (paras : List String) : List (List Char) :=
  (paras.map (fun p => cleanPara p.data)).filter (fun l => !l.isEmpty)

/-- Python `'\n'.join`. -/
def joinNl : List (List Char) → List Char
  | [] => []
  | p :: ps =>
    match ps with
    | [] => p
    | _ :: _ => p ++ '\n' :: joinNl ps

/-- Emit a pending run of `k` periods: kept verbatim when shorter than four,
replaced by one space otherwise (line 56). -/
def flushP (k : Nat) : List Char :=
  if 4 ≤ k then [' '] else List.replicate k '.'

/-- Line 56: `re.sub(r'\.{4,}', ' ', full_text)`, as a run-tracking pass. -/
def repP : Nat → List Char → List Char
  | k, [] => flushP k
  | k, c :: rest =>
    if c == '.' then repP (k + 1) rest else flushP k ++ c :: repP 0 rest

/-- Emit a pending run of `k` newlines: kept when shorter than three,
compressed to exactly two otherwise (line 57). -/
def flushN (k : Nat) : List Char :=
  if 3 ≤ k then ['\n', '\n'] else List.replicate k '\n'

/-- Line 57: `re.sub(r'\n{3,}', '\n\n', full_text)`, as a run-tracking pass. -/
def collapseNl : Nat → List Char → List Char
  | k, [] => flushN k
  | k, c :: rest =>
    if c == '\n' then collapseNl (k + 1) rest else flushN k ++ c :: collapseNl 0 rest

/-- The whole cleaning pipeline of `read_word_file` applied to the document's
paragraph texts (lines 45-60). -/
def readWordText (paras : List String) : String :=
  String.mk (collapseNl 0 (repP 0 (joinNl (cleanedParas paras))))

/-- Scanner: `true` iff the text has no run of four or more periods.
The counter is the length of the current period run. -/
def scanPRun : Nat → List Char → Bool
  | _, [] => true
  | k, c :: rest =>
    if c == '.' then decide (k + 1 ≤ 3) && scanPRun (k + 1) rest else scanPRun 0 rest

def noP4 (cs : List Char) : Bool := scanPRun 0 cs

/-- Scanner: `true` iff the text has no run of three or more newlines. -/
def scanNlRun : Nat → List Char → Bool
  | _, [] => true
  | k, c :: rest =>
    if c == '\n' then decide (k + 1 ≤ 2) && scanNlRun (k + 1) rest else scanNlRun 0 rest

def noNl3 (cs : List Char) : Bool := scanNlRun 0 cs

/-- Scanner: `true` iff the text has no two adjacent newlines; the flag says
whether the previous character was a newline. -/
def scanNl2 : Bool → List Char → Bool
  | _, [] => true
  | b, c :: rest =>
    if c == '\n' then !b && scanNl2 true rest else scanNl2 false rest

/-! ### Decoded JSON values and `json.loads` -/

/-- Decoded JSON values (what `json.loads` can return).  Numbers keep their
literal source text, which is all the claims ever observe of them. -/
inductive JVal where
  | null
  | bool (b : Bool)
  | num (lit : String)
  | str (s : String)
  | arr (xs : List JVal)
  | obj (kvs : List (String × JVal))

-- Python `repr` on decoded JSON values (`str` of a list element falls back to
-- this for nested containers).
mutual
def pyRepr : JVal → String
  | .null => "None"
  | .bool true => "True"
  | .bool false => "False"
  | .num l => l
  | .str s => "\x27" ++ s ++ "\x27"
  | .arr xs => "[" ++ pyReprItems xs ++ "]"
  | .obj kvs => "\x7b" ++ pyReprPairs kvs ++ "\x7d"

def pyReprItems : List JVal → String
  | [] => ""
  | [x] => pyRepr x
  | x :: y :: rest => pyRepr x ++ ", " ++ pyReprItems (y :: rest)

def pyReprPairs : List (String × JVal) → String
  | [] => ""
  | [kv] => "\x27" ++ kv.1 ++ "\x27: " ++ pyRepr kv.2
  | kv :: kv2 :: rest =>
    "\x27" ++ kv.1 ++ "\x27: " ++ pyRepr kv.2 ++ ", " ++ pyReprPairs (kv2 :: rest)
end

/-- Python `str` on decoded JSON values. -/
def pyStr (v : JVal) : String :=
  match v with
  | .str s => s
  | .null => "None"
  | .bool true => "True"
  | .bool false => "False"
  | .num l => l
  | .arr xs => pyRepr (.arr xs)
  | .obj kvs => pyRepr (.obj kvs)

/-- Lines 124-129 (name kept from the source): a list is joined with newlines,
`None` becomes the marker `'未提取'`, anything else is stringified. -/
def convert_list_to_str (data : JVal) : String :=
  match data with
  | .arr xs => String.intercalate ("\n") (xs.map pyStr)
  | .null => "未提取"
  | d => pyStr d

/-- Python dict lookup on a decoded object: duplicate keys keep the last
binding, as `json.loads` does. -/
def objLookup (kvs : List (String × JVal)) (k : String) : Option JVal :=
  match kvs.reverse.find? (fun kv => kv.1 == k) with
  | some kv => some kv.2
  | none => none

/-- Python `dict.get(k, default)`. -/
def objGetD (kvs : List (String × JVal)) (k : String) (d : JVal) : JVal :=
  (objLookup kvs k).getD d

/-- Lines 110-112: `convert_list_to_str(result.get(k, ''))`. -/
def fieldDisp (kvs : List (String × JVal)) (k : String) : String :=
  convert_list_to_str (objGetD kvs k (JVal.str ("")))

/-! #### A small recursive-descent JSON parser (the model of `json.loads`) -/

def lbrace : Char := Char.ofNat 123

def rbrace : Char := Char.ofNat 125

/-- JSON insignificant whitespace. -/
def skipWs : List Char → List Char
  | [] => []
  | c :: rest =>
    if c == ' ' || c == '\t' || c == '\n' || c == '\r' then skipWs rest else c :: rest

def hexD (c : Char) : Option Nat :=
  if 48 ≤ c.toNat && c.toNat ≤ 57 then some (c.toNat - 48)
  else if 97 ≤ c.toNat && c.toNat ≤ 102 then some (c.toNat - 87)
  else if 65 ≤ c.toNat && c.toNat ≤ 70 then some (c.toNat - 55)
  else none

def escChar (e : Char) : Option Char :=
  if e == '"' then some '"'
  else if e == '\\' then some '\\'
  else if e == '/' then some '/'
  else if e == 'n' then some '\n'
  else if e == 't' then some '\t'
  else if e == 'r' then some '\r'
  else if e == 'b' then some (Char.ofNat 8)
  else if e == 'f' then some (Char.ofNat 12)
  else none

/-- Parse the body of a JSON string (the opening quote already consumed). -/
def parseStrA : Nat → List Char → List Char → Option (List Char × List Char)
  | 0, _, _ => none
  | f + 1, acc, cs =>
    match cs with
    | [] => none
    | c :: rest =>
      if c == '"' then some (acc.reverse, rest)
      else if c == '\\' then
        match rest with
        | [] => none
        | e :: rest2 =>
          if e == 'u' then
            match rest2 with
            | h1 :: h2 :: h3 :: h4 :: rest3 =>
              match hexD h1, hexD h2, hexD h3, hexD h4 with
              | some a, some b, some c3, some d =>
                parseStrA f (Char.ofNat (((a * 16 + b) * 16 + c3) * 16 + d) :: acc) rest3
              | _, _, _, _ => none
            | _ => none
          else
            match escChar e with
            | some ec => parseStrA f (ec :: acc) rest2
            | none => none
      else if decide (c.toNat < 32) then none
      else parseStrA f (c :: acc) rest

/-- Optional fraction part of a JSON number. -/
def parseFrac (cs : List Char) : Option (List Char × List Char) :=
  match cs with
  | [] => some ([], [])
  | c :: rest =>
    if c == '.' then
      let ds := rest.takeWhile Char.isDigit
      if ds.isEmpty then none else some ('.' :: ds, rest.dropWhile Char.isDigit)
    else some ([], cs)

/-- Optional exponent part of a JSON number. -/
def parseExpPart (cs : List Char) : Option (List Char × List Char) :=
  match cs with
  | [] => some ([], [])
  | c :: rest =>
    if c == 'e' || c == 'E' then
      let (sg, rest2) :=
        match rest with
        | s :: r2 => if s == '+' || s == '-' then ([s], r2) else ([], rest)
        | [] => ([], [])
      let ds := rest2.takeWhile Char.isDigit
      if ds.isEmpty then none else some (c :: sg ++ ds, rest2.dropWhile Char.isDigit)
    else some ([], cs)

/-- JSON numbers; the literal text is preserved. -/
def parseNum (cs : List Char) : Option (JVal × List Char) :=
  let (sgn, cs1) :=
    match cs with
    | c :: rest => if c == '-' then (['-'], rest) else ([], cs)
    | [] => ([], [])
  let ip := cs1.takeWhile Char.isDigit
  let cs2 := cs1.dropWhile Char.isDigit
  if ip.isEmpty then none
  else
    match parseFrac cs2 with
    | none => none
    | some (fp, cs3) =>
      match parseExpPart cs3 with
      | none => none
      | some (ep, cs4) => some (.num (String.mk (sgn ++ ip ++ fp ++ ep)), cs4)

mutual
def parseVal : Nat → List Char → Option (JVal × List Char)
  | 0, _ => none
  | f + 1, cs =>
    match skipWs cs with
    | [] => none
    | c :: rest =>
      if c == 'n' then
        match rest with
        | 'u' :: 'l' :: 'l' :: r => some (.null, r)
        | _ => none
      else if c == 't' then
        match rest with
        | 'r' :: 'u' :: 'e' :: r => some (.bool true, r)
        | _ => none
      else if c == 'f' then
        match rest with
        | 'a' :: 'l' :: 's' :: 'e' :: r => some (.bool false, r)
        | _ => none
      else if c == '"' then
        match parseStrA (rest.length + 1) [] rest with
        | some (content, r) => some (.str (String.mk content), r)
        | none => none
      else if c == '[' then
        match skipWs rest with
        | ']' :: r => some (.arr [], r)
        | cs2 =>
          match parseVal f cs2 with
          | some (v, r) => parseArrTail f [v] r
          | none => none
      else if c == lbrace then
        match skipWs rest with
        | [] => none
        | c2 :: r2 =>
          if c2 == rbrace then some (.obj [], r2)
          else
            match parseMember f (c2 :: r2) with
            | some (kv, r) => parseObjTail f [kv] r
            | none => none
      else parseNum (c :: rest)

def parseMember : Nat → List Char → Option ((String × JVal) × List Char)
  | 0, _ => none
  | f + 1, cs =>
    match skipWs cs with
    | '"' :: rest =>
      match parseStrA (rest.length + 1) [] rest with
      | some (key, r) =>
        match skipWs r with
        | ':' :: r2 =>
          match parseVal f r2 with
          | some (v, r3) => some ((String.mk key, v), r3)
          | none => none
        | _ => none
      | none => none
    | _ => none

def parseArrTail : Nat → List JVal → List Char → Option (JVal × List Char)
  | 0, _, _ => none
  | f + 1, acc, cs =>
    match skipWs cs with
    | ',' :: rest =>
      match parseVal f rest with
      | some (v, r) => parseArrTail f (v :: acc) r
      | none => none
    | ']' :: rest => some (.arr acc.reverse, rest)
    | _ => none

def parseObjTail : Nat → List (String × JVal) → List Char → Option (JVal × List Char)
  | 0, _, _ => none
  | f + 1, acc, cs =>
    match skipWs cs with
    | [] => none
    | c :: rest =>
      if c == ',' then
        match parseMember f rest with
        | some (kv, r) => parseObjTail f (kv :: acc) r
        | none => none
      else if c == rbrace then some (.obj acc.reverse, rest)
      else none
end

/-- The model of `json.loads` on a character list: parse one value and require
only whitespace to remain. -/
def jsonLoads (cs : List Char) : Option JVal :=
  match parseVal (2 * cs.length + 4) cs with
  | some (v, rest) =>
    match skipWs rest with
    | [] => some v
    | _ => none
  | none => none

/-! ### Extracting the fenced payload from the answer text -/

def fenceOpen : List Char := ("```json").data

def fenceClose : List Char := ("```").data

/-- Suffix after the first occurrence of ```` ```json ````. -/
def findOpen : List Char → Option (List Char)
  | [] => none
  | c :: rest =>
    if fenceOpen.isPrefixOf (c :: rest) then some ((c :: rest).drop 7) else findOpen rest

/-- Content before the first occurrence of ```` ``` ````. -/
def findClose : List Char → Option (List Char)
  | [] => none
  | c :: rest =>
    if fenceClose.isPrefixOf (c :: rest) then some []
    else (findClose rest).map (fun l => c :: l)

/-- Line 104: `re.search(r'```json(.*?)```', answer, re.DOTALL)`, returning the
lazily captured group. -/
def findFenced (cs : List Char) : Option (List Char) :=
  match findOpen cs with
  | some s => findClose s
  | none => none

def pyWsStrip (c : Char) : Bool :=
  c == ' ' || c == '\t' || c == '\n' || c == '\r' || c.toNat == 11 || c.toNat == 12

/-- Python `str.strip()` on the captured group (line 108). -/
def pyStrip (cs : List Char) : List Char :=
  ((cs.dropWhile pyWsStrip).reverse.dropWhile pyWsStrip).reverse

/-! ### Excel cell values and the request body -/

/-- Scalar cell values as `openpyxl` yields them with `values_only=True`
(strings, numbers, booleans, or `None` for empty cells). -/
inductive Cell where
  | null
  | str (s : String)
  | num (lit : String)
  | bool (b : Bool)
deriving DecidableEq

def hexChar (n : Nat) : Char :=
  if n < 10 then Char.ofNat (48 + n) else Char.ofNat (87 + n)

/-- JSON string escaping as `json.dumps(..., ensure_ascii=False)` performs it. -/
def escList : List Char → List Char
  | [] => []
  | c :: rest =>
    if c == '"' then '\\' :: '"' :: escList rest
    else if c == '\\' then '\\' :: '\\' :: escList rest
    else if c == '\n' then '\\' :: 'n' :: escList rest
    else if c == '\t' then '\\' :: 't' :: escList rest
    else if c == '\r' then '\\' :: 'r' :: escList rest
    else if decide (c.toNat < 32) then
      '\\' :: 'u' :: '0' :: '0' :: hexChar (c.toNat / 16) :: hexChar (c.toNat % 16) :: escList rest
    else c :: escList rest

def jsonEscape (s : String) : String := String.mk (escList s.data)

/-- `json.dumps` on a scalar cell value. -/
def dumpCell (c : Cell) : String :=
  match c with
  | .null => "null"
  | .str s => "\"" ++ jsonEscape s ++ "\""
  | .num l => l
  | .bool true => "true"
  | .bool false => "false"

/-- Lines 70-74: `json.dumps(query_data, ensure_ascii=False, indent=4)` for the
two-key query dict, producing the 4-space indented multi-line form. -/
def dumpsQuery (v0 v1 : Cell) : String :=
  ("\x7b\n    \"条款\": ") ++ dumpCell v0 ++
  (",\n    \"内容概要填写说明和提示\": ") ++ dumpCell v1 ++ ("\n\x7d")

/-- The JSON body posted to the service (lines 77-84). -/
structure Payload where
  response_mode : String
  user : String
  inputs : List (String × String)
deriving DecidableEq

/-- Outcome of the single `requests.post` call: the request raised
(connection failure / timeout), or a response arrived with a status code and,
if `.json()` succeeds on it, a decoded body. -/
inductive HttpOutcome where
  | connError
  | timeoutErr
  | resp (status : Nat) (body : Option JVal)

/-- The per-row result dict of lines 109-122:
summary = `'内容概要'`, clause_numbers = `'条款序号'`, clause_text = `'条款原文'`. -/
structure RowResult where
  summary : String
  clause_numbers : String
  clause_text : String
  error : String
deriving DecidableEq

/-- What one invocation of `process_excel_row` did: its outcome (`Except.error`
models an exception escaping the function), how many network calls it made,
and the request body it posted, if any. -/
structure RowAttempt where
  result : Except String RowResult
  calls : Nat
  request : Option Payload

/-- Python tuple indexing `row[i]`. -/
def pyIndex (row : List Cell) (i : Nat) : Except String Cell :=
  match row[i]? with
  | some v => Except.ok v
  | none => Except.error ("tuple index out of range")

/-- Python dict subscription `v[k]` on a decoded JSON value. -/
def pyGetItem (v : JVal) (k : String) : Except String JVal :=
  match v with
  | .obj kvs =>
    match objLookup kvs k with
    | some x => Except.ok x
    | none => Except.error (("KeyError: ") ++ k)
  | _ => Except.error ("TypeError: value is not subscriptable")

/-- Lines 102-114: pull `data.outputs.Answer`, find the fenced block, decode
it, and normalise the three fields. -/
def extractAnswer (bj : JVal) : Except String RowResult :=
  match pyGetItem bj ("data") with
  | .error e => Except.error e
  | .ok d =>
    match pyGetItem d ("outputs") with
    | .error e => Except.error e
    | .ok o =>
      match pyGetItem o ("Answer") with
      | .error e => Except.error e
      | .ok a =>
        match a with
        | .str answer =>
          match findFenced answer.data with
          | some block =>
            match jsonLoads (pyStrip block) with
            | some v =>
              match v with
              | .obj kvs =>
                Except.ok
                  { summary := fieldDisp kvs ("内容概要"),
                    clause_numbers := fieldDisp kvs ("条款序号"),
                    clause_text := fieldDisp kvs ("条款原文"),
                    error := "" }
              | _ => Except.error ("AttributeError: result object has no attribute get")
            | none => Except.error ("json.decoder.JSONDecodeError: invalid payload")
          | none => Except.error ("未找到有效JSON数据")
        | _ => Except.error ("TypeError: expected string or bytes-like object")

/-- `raise_for_status` message for a 4xx/5xx response. -/
def httpMsg (status : Nat) (url : String) : String :=
  ("HTTP error ") ++ Nat.repr status ++ (" for url ") ++ url

/-- Lines 89-114 after the request body was built: the network call and, on a
2xx response with a JSON body, the extraction. -/
def serviceAndExtract (svc : HttpOutcome) (url : String) : Except String RowResult :=
  match svc with
  | .connError => Except.error ("requests.exceptions.ConnectionError: connection failed")
  | .timeoutErr => Except.error ("requests.exceptions.Timeout: read timed out (timeout=600)")
  | .resp status body =>
    if 400 ≤ status ∧ status < 600 then Except.error (httpMsg status url)
    else
      match body with
      | some bj => extractAnswer bj
      | none => Except.error ("json.decoder.JSONDecodeError: Expecting value")

/-- The `try` body of `process_excel_row` (lines 68-114).  Building the query
evaluates `row[0]` then `row[1]`; only if both succeed is the request posted,
so `calls` counts the network calls actually made. -/
def rowTry (row : List Cell) (fileText url : String) (svc : HttpOutcome) : RowAttempt :=
  match pyIndex row 0 with
  | .error e => { result := Except.error e, calls := 0, request := none }
  | .ok v0 =>
    match pyIndex row 1 with
    | .error e => { result := Except.error e, calls := 0, request := none }
    | .ok v1 =>
      let payload : Payload :=
        { response_mode := "blocking",
          user := "haha-partner",
          inputs := [(("Query"), dumpsQuery v0 v1), (("File"), fileText)] }
      { result := serviceAndExtract svc url, calls := 1, request := some payload }

/-- `process_excel_row` (lines 66-122).  The `except` block first evaluates
`row[0]` inside the log f-string (line 116) — on an empty row that raises
again and the new `IndexError` propagates — and otherwise returns the
sentinel-filled dict of lines 117-122. -/
def processExcelRow (row : List Cell) (fileText apiUrl authToken : String)
    (svc : HttpOutcome) : RowAttempt :=
  let t := rowTry row fileText apiUrl svc
  match t.result with
  | .ok _ => t
  | .error e =>
    match pyIndex row 0 with
    | .error e2 => { t with result := Except.error e2 }
    | .ok _ =>
      { t with
        result := Except.ok
          { summary := "处理失败", clause_numbers := "处理失败",
            clause_text := "处理失败", error := e } }

/-! ### Document loop and pipeline (`process_documents`, `__main__`) -/

/-- Python list element assignment `l[i] = v`: fails with `IndexError` when
the index is out of range. -/
def pySetIdx (l : List Cell) (i : Nat) (v : Cell) : Option (List Cell) :=
  if i < l.length then some (l.set i v) else none

def idxErrMsg : String := "list assignment index out of range"

/-- Lines 154-168, one data row: call the row processor, then build
`new_row = list(row) + [error]` and assign indices 2, 3, 4; an exception from
either step is caught and the row `list(row) + [str(e)]` is appended. -/
def runDocRow (proc1 : List Cell → Except String RowResult) (row : List Cell) : List Cell :=
  match proc1 row with
  | .error e => row ++ [Cell.str e]
  | .ok r =>
    match pySetIdx (row ++ [Cell.str r.error]) 2 (Cell.str r.summary) with
    | some l2 =>
      match pySetIdx l2 3 (Cell.str r.clause_numbers) with
      | some l3 =>
        match pySetIdx l3 4 (Cell.str r.clause_text) with
        | some l4 => l4
        | none => row ++ [Cell.str idxErrMsg]
      | none => row ++ [Cell.str idxErrMsg]
    | none => row ++ [Cell.str idxErrMsg]

/-- Lines 153-168: process the data rows in order.  The counter is the row
position, used only to let the network oracle differ per row (the source's
`enumerate` index only feeds log messages). -/
def docRowsAux (proc : Nat → List Cell → Except String RowResult) :
    Nat → List (List Cell) → List (List Cell)
  | _, [] => []
  | i, row :: rest => runDocRow (proc i) row :: docRowsAux proc (i + 1) rest

def documentRunner (proc : Nat → List Cell → Except String RowResult)
    (rows : List (List Cell)) : List (List Cell) :=
  docRowsAux proc 0 rows

/-- Lines 148-168: the fresh worksheet for one document — header row
(line 139/150) followed by the processed data rows. -/
def outputTable (hdr : List Cell) (rows : List (List Cell))
    (proc : Nat → List Cell → Except String RowResult) : List (List Cell) :=
  (hdr ++ [Cell.str ("error")]) :: documentRunner proc rows

/-- The settings object loaded by `load_config`. -/
structure Config where
  word_paths : List String
  excel_path : String
  api_url : String
  auth_token : String

def fileNameOf (p : String) : List Char :=
  (p.data.reverse.takeWhile (fun c => c != '/')).reverse

def dirPrefixOf (p : String) : List Char :=
  p.data.take (p.data.length - (fileNameOf p).length)

/-- On a reversed file name: drop the characters of the final extension
together with its dot (`None` when there is no extension to drop). -/
def cutExt : List Char → Option (List Char)
  | [] => none
  | c :: rest => if c == '.' then (if rest.isEmpty then none else some rest) else cutExt rest

/-- `pathlib.Path(...).stem`. -/
def stemOf (name : List Char) : List Char :=
  match cutExt name.reverse with
  | some r => r.reverse
  | none => name

/-- Lines 171-173: `Path(word_path).with_name(f"{Path(word_path).stem}_result.xlsx")`. -/
def resultName (p : String) : String :=
  String.mk (dirPrefixOf p ++ stemOf (fileNameOf p) ++ ("_result.xlsx").data)

/-- Lines 142-179: for each document path, read it (failure is caught and the
loop continues), build the output table, and save it.  Saving is modelled as
collecting `(result file name, table)` pairs. -/
def docLoop (hdr : List Cell) (rows : List (List Cell)) (api tok : String)
    (readO : String → Except String (List String)) (svc : String → Nat → HttpOutcome) :
    List String → List (String × List (List Cell))
  | [] => []
  | p :: rest =>
    match readO p with
    | .error _ => docLoop hdr rows api tok readO svc rest
    | .ok paras =>
      (resultName p,
        outputTable hdr rows
          (fun i row => (processExcelRow row (readWordText paras) api tok (svc p i)).result)) ::
      docLoop hdr rows api tok readO svc rest

/-- `process_documents` (lines 132-183).  The spreadsheet load is an oracle;
its failure (or an empty sheet at line 139) reaches the outer `except`, which
logs and re-raises — modelled as `Except.error`. -/
def processDocumentsE (cfg : Config) (excelO : Except String (List (List Cell)))
    (readO : String → Except String (List String)) (svc : String → Nat → HttpOutcome) :
    Except String (List (String × List (List Cell))) :=
  match excelO with
  | .error e => Except.error e
  | .ok allRows =>
    match allRows with
    | [] => Except.error ("list index out of range")
    | hdr :: dataRows =>
      Except.ok (docLoop hdr dataRows cfg.api_url cfg.auth_token readO svc cfg.word_paths)

/-- How the process ended: `completed` carries the saved result files and the
error log entries of the top-level handlers; `crashed` would be an exception
escaping `__main__` (the embedding of the handlers never produces it). -/
inductive ProcExit where
  | completed (outputs : List (String × List (List Cell))) (errlog : List String)
  | crashed (msg : String)

/-- The `__main__` guard (lines 186-191): load the configuration, run
`process_documents`, and catch any exception, logging it. -/
def runMain (cfgO : Except String Config) (excelO : Except String (List (List Cell)))
    (readO : String → Except String (List String)) (svc : String → Nat → HttpOutcome) :
    ProcExit :=
  match cfgO with
  | .error e => ProcExit.completed [] [("配置文件加载失败: ") ++ e, ("程序异常终止: ") ++ e]
  | .ok cfg =>
    match processDocumentsE cfg excelO readO svc with
    | .ok outs => ProcExit.completed outs []
    | .error e => ProcExit.completed [] [("主流程异常: ") ++ e, ("程序异常终止: ") ++ e]

/-- Modelled from the spec: "serializes it to a compact string form" — the
compact one-line JSON serialization of the two-key query dict (no inserted
newlines or indentation; Python's default separators), for comparison with
the serialization the code performs. -/
def querySerializedCompact (v0 v1 : Cell) : String :=
  ("\x7b\"条款\": ") ++ dumpCell v0 ++ (", \"内容概要填写说明和提示\": ") ++ dumpCell v1 ++ ("\x7d")

/-! ### Helper lemmas -/

theorem strApp_data_ne (a b : String) (h : a.data ≠ []) : (a ++ b).data ≠ [] := by
  have hd : (a ++ b).data = a.data ++ b.data := by cases a; cases b; rfl
  rw [hd]
  intro hn
  exact h (List.append_eq_nil.mp hn).1

theorem str_ne_of_data (s : String) (h : s.data ≠ []) : s ≠ "" := by
  intro he
  rw [he] at h
  exact h rfl

theorem strApp_ne_empty (a b : String) (h : a.data ≠ []) : a ++ b ≠ "" :=
  str_ne_of_data _ (strApp_data_ne a b h)

/-! ### Claim C2 — field normalization -/

/-- C2 (amended): for any field of the decoded payload, normalization joins a
list with newlines preserving order (elements stringified), stringifies a
present scalar as-is, and maps a present-but-null field to `'未提取'`; an
*absent* field, however, yields the empty string (the lookup default `''` is
stringified as-is), not the `'未提取'` marker. -/
theorem claim2_field_normalization (kvs : List (String × JVal)) (k : String) :
    (objLookup kvs k = none → fieldDisp kvs k = "") ∧
    (objLookup kvs k = some JVal.null → fieldDisp kvs k = "未提取") ∧
    (∀ xs, objLookup kvs k = some (JVal.arr xs) →
      fieldDisp kvs k = String.intercalate ("\n") (xs.map pyStr)) ∧
    (∀ v, objLookup kvs k = some v → (∀ xs, v ≠ JVal.arr xs) → v ≠ JVal.null →
      fieldDisp kvs k = pyStr v) := by
  refine ⟨?_, ?_, ?_, ?_⟩
  · intro h
    unfold fieldDisp objGetD
    rw [h]
    rfl
  · intro h
    unfold fieldDisp objGetD
    rw [h]
    rfl
  · intro xs h
    unfold fieldDisp objGetD
    rw [h]
    rfl
  · intro v h hna hnn
    unfold fieldDisp objGetD
    rw [h]
    cases v with
    | null => exact absurd rfl hnn
    | arr xs => exact absurd rfl (hna xs)
    | bool b => cases b <;> rfl
    | num l => rfl
    | str s => rfl
    | obj kvs2 => rfl

/-- Witness for C2 at a concrete input: a present-but-null field yields the
`'未提取'` marker. -/
theorem claim2_field_normalization_witness :
    fieldDisp [(("条款原文"), JVal.null)] ("条款原文") = "未提取" :=
  (claim2_field_normalization [(("条款原文"), JVal.null)] ("条款原文")).2.1 rfl

/-- C2 counterexample: an absent field normalizes to the empty string, not to
`'未提取'` — refuting "an absent field yields '未提取' and is never the empty
string". -/
theorem claim2_absent_field_cex :
    fieldDisp [] ("内容概要") = "" ∧ ("" : String) ≠ "未提取" :=
  ⟨rfl, by decide⟩

/-! ### Claim C5 — round-trip through a concrete fenced answer -/

/-- C5: for an answer containing the fenced block
`{"内容概要": ["a","b"], "条款序号": "1.1", "条款原文": null}`, extraction
succeeds with summary `"a\nb"`, clause_numbers `"1.1"`, clause_text the
`'未提取'` marker, and an empty error. -/
theorem claim5_roundtrip :
    (processExcelRow [Cell.str ("条款1"), Cell.str ("说明1")] "合同文本" "api" "tok"
      (HttpOutcome.resp 200 (some (JVal.obj
        [(("data"), JVal.obj
          [(("outputs"), JVal.obj
            [(("Answer"), JVal.str
              ("结果：```json\n\x7b\"内容概要\": [\"a\", \"b\"], \"条款序号\": \"1.1\", \"条款原文\": null\x7d\n```"))])])])))).result
    = Except.ok
        { summary := "a\nb", clause_numbers := "1.1", clause_text := "未提取", error := "" } := by
  rfl

/-! ### Claim C7 — request construction -/

/-- C7 (amended): whenever `row[0]` and `row[1]` exist, the posted request body
is exactly `{response_mode: "blocking", user: "haha-partner", inputs: {Query:
<serialized query>, File: <document text>}}` with the document text passed
through unmodified; the query serialization, however, is the 4-space-indented
multi-line `json.dumps(..., indent=4)` form, not a compact one-line form. -/
theorem claim7_request_envelope (row : List Cell) (text api tok : String) (svc : HttpOutcome)
    (v0 v1 : Cell) (h0 : pyIndex row 0 = Except.ok v0) (h1 : pyIndex row 1 = Except.ok v1) :
    (processExcelRow row text api tok svc).request =
      some { response_mode := "blocking", user := "haha-partner",
             inputs := [(("Query"), dumpsQuery v0 v1), (("File"), text)] } := by
  unfold processExcelRow rowTry
  rw [h0, h1]
  cases hse : serviceAndExtract svc api <;> simp [h0]

/-- Witness for C7 at a concrete row. -/
theorem claim7_request_envelope_witness :
    (processExcelRow [Cell.str ("条"), Cell.str ("说")] "txt" "u" "k"
        HttpOutcome.timeoutErr).request =
      some { response_mode := "blocking", user := "haha-partner",
             inputs := [(("Query"), dumpsQuery (Cell.str ("条")) (Cell.str ("说"))),
                        (("File"), "txt")] } :=
  claim7_request_envelope _ _ _ _ _ _ _ rfl rfl

/-- C7 counterexample: the serialized query contains newline characters and
differs from the compact serialization the spec describes. -/
theorem claim7_compact_cex :
    '\n' ∈ (dumpsQuery (Cell.str ("a")) (Cell.str ("b"))).data ∧
    dumpsQuery (Cell.str ("a")) (Cell.str ("b")) ≠
      querySerializedCompact (Cell.str ("a")) (Cell.str ("b")) := by
  decide

/-! ### Claim C4 — document-level isolation -/

/-- C4: the document loop is exactly a filter-map over the configured paths —
every document whose read succeeds yields its result file with the full output
table, and a document whose read fails is skipped without affecting any other
document, whatever the read and network oracles do. -/
theorem claim4_document_isolation (hdr : List Cell) (rows : List (List Cell))
    (api tok : String) (readO : String → Except String (List String))
    (svc : String → Nat → HttpOutcome) (paths : List String) :
    docLoop hdr rows api tok readO svc paths =
      paths.filterMap (fun p =>
        match readO p with
        | .ok paras =>
          some (resultName p,
            outputTable hdr rows
              (fun i row =>
                (processExcelRow row (readWordText paras) api tok (svc p i)).result))
        | .error _ => none) := by
  induction paths with
  | nil => rfl
  | cons p rest ih =>
    simp only [docLoop, List.filterMap_cons]
    cases readO p <;> simp [ih]

/-! ### Claim C8 — only configuration failure aborts, everything completes -/

/-- C8: the process always completes (no exception escapes `__main__`); when
the configuration loads but the checklist spreadsheet read fails, the run
still completes with the failure logged and no result files; a configuration
load failure is what prevents any processing from starting. -/
theorem claim8_run_completion (cfgO : Except String Config)
    (excelO : Except String (List (List Cell)))
    (readO : String → Except String (List String)) (svc : String → Nat → HttpOutcome) :
    (∃ outs log, runMain cfgO excelO readO svc = ProcExit.completed outs log) ∧
    (∀ cfg e, cfgO = Except.ok cfg → excelO = Except.error e →
      runMain cfgO excelO readO svc =
        ProcExit.completed [] [("主流程异常: ") ++ e, ("程序异常终止: ") ++ e] ∧
      (("主流程异常: ") ++ e) ≠ "") ∧
    (∀ e, cfgO = Except.error e →
      runMain cfgO excelO readO svc =
        ProcExit.completed [] [("配置文件加载失败: ") ++ e, ("程序异常终止: ") ++ e]) := by
  refine ⟨?_, ?_, ?_⟩
  · cases cfgO with
    | error e => exact ⟨[], _, rfl⟩
    | ok cfg =>
      cases h : processDocumentsE cfg excelO readO svc with
      | ok outs => exact ⟨outs, [], by simp [runMain, h]⟩
      | error e =>
        exact ⟨[], [("主流程异常: ") ++ e, ("程序异常终止: ") ++ e], by simp [runMain, h]⟩
  · intro cfg e hc he
    subst hc
    subst he
    exact ⟨rfl, strApp_ne_empty _ _ (by decide)⟩
  · intro e hc
    subst hc
    rfl

/-- Witness for C8: with a concrete configuration and a failing checklist
read, the run completes with the failure logged. -/
theorem claim8_run_completion_witness :
    runMain
      (Except.ok
        { word_paths := [("a.docx")], excel_path := "c.xlsx",
          api_url := "u", auth_token := "t" })
      (Except.error ("no such file")) (fun _ => Except.error ("unread"))
      (fun _ _ => HttpOutcome.connError) =
      ProcExit.completed []
        [("主流程异常: ") ++ ("no such file"), ("程序异常终止: ") ++ ("no such file")] :=
  ((claim8_run_completion _ _ _ _).2.1 _ _ rfl rfl).1

/-! ### Claims C1 and C9 — the row processor's guarantees -/

theorem pyIndex_error_ne (row : List Cell) (i : Nat) (e : String)
    (h : pyIndex row i = Except.error e) : e ≠ "" := by
  unfold pyIndex at h
  cases hl : row[i]? with
  | some v => rw [hl] at h; exact absurd h (by simp)
  | none =>
    rw [hl] at h
    have he : ("tuple index out of range") = e := by
      exact (Except.error.injEq _ _).mp h
    rw [← he]
    decide

theorem pyGetItem_error_ne (v : JVal) (k : String) (e : String)
    (h : pyGetItem v k = Except.error e) : e ≠ "" := by
  unfold pyGetItem at h
  split at h
  · split at h
    · exact absurd h (by simp)
    · rw [← (Except.error.injEq _ _).mp h]
      exact strApp_ne_empty _ _ (by decide)
  · rw [← (Except.error.injEq _ _).mp h]
    decide

/-- One traversal of the extraction: it either fails with a non-empty message
or succeeds with an empty `error` field. -/
theorem extractAnswer_sound (bj : JVal) :
    (∃ e, extractAnswer bj = Except.error e ∧ e ≠ "") ∨
    (∃ r, extractAnswer bj = Except.ok r ∧ r.error = "") := by
  unfold extractAnswer
  split
  · rename_i e1 h1
    exact .inl ⟨e1, rfl, pyGetItem_error_ne _ _ _ h1⟩
  · split
    · rename_i e2 h2
      exact .inl ⟨e2, rfl, pyGetItem_error_ne _ _ _ h2⟩
    · split
      · rename_i e3 h3
        exact .inl ⟨e3, rfl, pyGetItem_error_ne _ _ _ h3⟩
      · split
        · split
          · split
            · split
              · exact .inr ⟨_, rfl, rfl⟩
              · exact .inl ⟨_, rfl, by decide⟩
            · exact .inl ⟨_, rfl, by decide⟩
          · exact .inl ⟨_, rfl, by decide⟩
        · exact .inl ⟨_, rfl, by decide⟩

theorem httpMsg_ne (status : Nat) (url : String) : httpMsg status url ≠ "" := by
  unfold httpMsg
  exact str_ne_of_data _ (strApp_data_ne _ _ (strApp_data_ne _ _ (strApp_data_ne _ _ (by decide))))

theorem serviceAndExtract_sound (svc : HttpOutcome) (url : String) :
    (∃ e, serviceAndExtract svc url = Except.error e ∧ e ≠ "") ∨
    (∃ r, serviceAndExtract svc url = Except.ok r ∧ r.error = "") := by
  unfold serviceAndExtract
  split
  · exact .inl ⟨_, rfl, by decide⟩
  · exact .inl ⟨_, rfl, by decide⟩
  · split
    · exact .inl ⟨_, rfl, httpMsg_ne _ _⟩
    · split
      · exact extractAnswer_sound _
      · exact .inl ⟨_, rfl, by decide⟩

theorem rowTry_sound (row : List Cell) (ft url : String) (svc : HttpOutcome) :
    (∃ e, (rowTry row ft url svc).result = Except.error e ∧ e ≠ "") ∨
    (∃ r, (rowTry row ft url svc).result = Except.ok r ∧ r.error = "") := by
  unfold rowTry
  cases h0 : pyIndex row 0 with
  | error e => exact .inl ⟨e, rfl, pyIndex_error_ne _ _ _ h0⟩
  | ok v0 =>
    cases h1 : pyIndex row 1 with
    | error e => exact .inl ⟨e, rfl, pyIndex_error_ne _ _ _ h1⟩
    | ok v1 =>
      rcases serviceAndExtract_sound svc url with ⟨e, he, hne⟩ | ⟨r, hr, hre⟩
      · exact .inl ⟨e, he, hne⟩
      · exact .inr ⟨r, hr, hre⟩

/-- C1 (amended): for every *non-empty* checklist row (and any document text,
endpoint, token and network outcome) `process_excel_row` returns a
`RowResult`; its `error` field is empty exactly when the `try` body
succeeded, and on any failure all three content fields hold the `'处理失败'`
sentinel with a non-empty `error`.  (On an empty row the `IndexError` raised
again inside the handler's log f-string propagates — see the
counterexample.) -/
theorem claim1_row_guarantee (row : List Cell) (text api tok : String) (svc : HttpOutcome)
    (hne : 0 < row.length) :
    ∃ r : RowResult,
      (processExcelRow row text api tok svc).result = Except.ok r ∧
      (r.error = "" ↔ (rowTry row text api svc).result = Except.ok r) ∧
      (r.error ≠ "" →
        r.summary = "处理失败" ∧ r.clause_numbers = "处理失败" ∧
        r.clause_text = "处理失败") := by
  have h0 : pyIndex row 0 = Except.ok (row.get ⟨0, hne⟩) := by
    unfold pyIndex
    rw [List.getElem?_eq_getElem hne]
    rfl
  rcases rowTry_sound row text api svc with ⟨e, he, hene⟩ | ⟨r, hr, hre⟩
  · refine ⟨{ summary := "处理失败", clause_numbers := "处理失败",
              clause_text := "处理失败", error := e }, ?_, ?_, ?_⟩
    · simp [processExcelRow, he, h0]
    · constructor
      · intro hcon
        exact absurd hcon hene
      · intro hcon
        rw [he] at hcon
        exact absurd hcon (by simp)
    · intro _
      exact ⟨rfl, rfl, rfl⟩
  · refine ⟨r, ?_, iff_of_true hre hr, fun hcon => absurd hre hcon⟩
    simp [processExcelRow, hr]

/-- Witness for C1 at a concrete one-cell row with a timed-out call. -/
theorem claim1_row_guarantee_witness :
    ∃ r : RowResult,
      (processExcelRow [Cell.str ("r")] "t" "u" "k" HttpOutcome.timeoutErr).result =
        Except.ok r ∧
      (r.error = "" ↔
        (rowTry [Cell.str ("r")] "t" "u" HttpOutcome.timeoutErr).result = Except.ok r) ∧
      (r.error ≠ "" →
        r.summary = "处理失败" ∧ r.clause_numbers = "处理失败" ∧
        r.clause_text = "处理失败") :=
  claim1_row_guarantee _ _ _ _ _ (by decide)

/-- C1 counterexample: on the empty row the handler's log f-string re-raises
`row[0]`'s `IndexError`, so `process_excel_row` propagates an exception
instead of returning a `RowResult`. -/
theorem claim1_empty_row_cex :
    (processExcelRow [] "t" "u" "k" HttpOutcome.connError).result =
      Except.error ("tuple index out of range") := rfl

theorem processExcelRow_calls (row : List Cell) (text api tok : String) (svc : HttpOutcome) :
    (processExcelRow row text api tok svc).calls = (rowTry row text api svc).calls := by
  unfold processExcelRow
  cases h : (rowTry row text api svc).result with
  | ok r => simp [h]
  | error e =>
    cases h0 : pyIndex row 0 with
    | error e2 => simp [h, h0]
    | ok v => simp [h, h0]

/-- C9 (amended): at most one network call per invocation — exactly one when
the request body could be built (`row[0]` and `row[1]` exist), zero when it
could not; on a one-cell row no call is made and a sentinel-filled
`RowResult` is still returned, while on an empty row no call is made but the
handler's `IndexError` propagates instead of a `RowResult`. -/
theorem claim9_single_call (row : List Cell) (text api tok : String) (svc : HttpOutcome) :
    (processExcelRow row text api tok svc).calls ≤ 1 ∧
    (2 ≤ row.length → (processExcelRow row text api tok svc).calls = 1) ∧
    (row.length < 2 → (processExcelRow row text api tok svc).calls = 0) ∧
    (row.length = 1 →
      ∃ e, (processExcelRow row text api tok svc).result =
          Except.ok
            { summary := "处理失败", clause_numbers := "处理失败",
              clause_text := "处理失败", error := e } ∧ e ≠ "") := by
  match row with
  | [] =>
    refine ⟨?_, ?_, ?_, ?_⟩
    · rw [processExcelRow_calls]
      exact Nat.zero_le _
    · intro h
      exact absurd h (by simp)
    · intro _
      rw [processExcelRow_calls]
      rfl
    · intro h
      exact absurd h (by simp)
  | [a] =>
    refine ⟨?_, ?_, ?_, ?_⟩
    · rw [processExcelRow_calls]
      exact Nat.zero_le _
    · intro h
      exact absurd h (by simp)
    · intro _
      rw [processExcelRow_calls]
      rfl
    · intro _
      exact ⟨("tuple index out of range"), rfl, by decide⟩
  | a :: b :: rest =>
    have h0 : pyIndex (a :: b :: rest) 0 = Except.ok a := by simp [pyIndex]
    have h1 : pyIndex (a :: b :: rest) 1 = Except.ok b := by simp [pyIndex]
    have hcall : (processExcelRow (a :: b :: rest) text api tok svc).calls = 1 := by
      rw [processExcelRow_calls]
      unfold rowTry
      rw [h0, h1]
    refine ⟨?_, fun _ => hcall, ?_, ?_⟩
    · rw [hcall]
    · intro h
      simp only [List.length_cons] at h
      omega
    · intro h
      simp only [List.length_cons] at h
      omega

/-- Witness for C9: a one-cell row makes zero network calls. -/
theorem claim9_single_call_witness :
    (processExcelRow [Cell.str ("a")] "t" "u" "k" HttpOutcome.connError).calls = 0 :=
  (claim9_single_call _ _ _ _ _).2.2.1 (by decide)

/-- C9 counterexample: on the empty row, request construction fails with zero
calls, but no sentinel-filled `RowResult` is returned — the exception
propagates instead. -/
theorem claim9_empty_row_cex :
    (processExcelRow [] "t" "u" "k" (HttpOutcome.resp 200 none)).calls = 0 ∧
    (processExcelRow [] "t" "u" "k" (HttpOutcome.resp 200 none)).result =
      Except.error ("tuple index out of range") :=
  ⟨rfl, rfl⟩

/-! ### Claims C3 and C10 — output row construction -/

theorem set_append_lt (l l2 : List Cell) (i : Nat) (v : Cell) (h : i < l.length) :
    (l ++ l2).set i v = l.set i v ++ l2 := by
  induction l generalizing i with
  | nil => exact absurd h (by simp)
  | cons a t ih =>
    cases i with
    | zero => rfl
    | succ n =>
      simp only [List.cons_append, List.set_cons_succ]
      rw [ih n (by simpa using h)]

theorem getElem?_set_lt (l : List Cell) (i : Nat) (v : Cell) (h : i < l.length) :
    (l.set i v)[i]? = some v := by
  induction l generalizing i with
  | nil => exact absurd h (by simp)
  | cons a t ih =>
    cases i with
    | zero => simp
    | succ n =>
      simp only [List.set_cons_succ, List.getElem?_cons_succ]
      exact ih n (by simpa using h)

/-- When the row has at least four cells, the three index assignments of
lines 161-164 all succeed, and the produced row is
`(list(row) + [error])[2] = summary, [3] = clause numbers, [4] = clause
text`. -/
theorem runDocRow_sets (proc1 : List Cell → Except String RowResult) (row : List Cell)
    (r : RowResult) (h4 : 4 ≤ row.length) (hok : proc1 row = Except.ok r) :
    runDocRow proc1 row =
      (((row ++ [Cell.str r.error]).set 2 (Cell.str r.summary)).set 3
          (Cell.str r.clause_numbers)).set 4 (Cell.str r.clause_text) := by
  have len1 : (row ++ [Cell.str r.error]).length = row.length + 1 := by simp
  have h2 : pySetIdx (row ++ [Cell.str r.error]) 2 (Cell.str r.summary) =
      some ((row ++ [Cell.str r.error]).set 2 (Cell.str r.summary)) := by
    unfold pySetIdx
    rw [if_pos (by omega)]
  have len2 : ((row ++ [Cell.str r.error]).set 2 (Cell.str r.summary)).length =
      row.length + 1 := by simp
  have h3 : pySetIdx ((row ++ [Cell.str r.error]).set 2 (Cell.str r.summary)) 3
      (Cell.str r.clause_numbers) =
      some (((row ++ [Cell.str r.error]).set 2 (Cell.str r.summary)).set 3
        (Cell.str r.clause_numbers)) := by
    unfold pySetIdx
    rw [if_pos (by omega)]
  have len3 : (((row ++ [Cell.str r.error]).set 2 (Cell.str r.summary)).set 3
      (Cell.str r.clause_numbers)).length = row.length + 1 := by simp
  have h5 : pySetIdx (((row ++ [Cell.str r.error]).set 2 (Cell.str r.summary)).set 3
      (Cell.str r.clause_numbers)) 4 (Cell.str r.clause_text) =
      some ((((row ++ [Cell.str r.error]).set 2 (Cell.str r.summary)).set 3
        (Cell.str r.clause_numbers)).set 4 (Cell.str r.clause_text)) := by
    unfold pySetIdx
    rw [if_pos (by omega)]
  unfold runDocRow
  simp only [hok, h2, h3, h5]

/-- C10: for a 4-cell checklist row on which the row processor returns
normally, the persisted output row has exactly 5 cells and its final cell
(index 4) holds the clause-text value — the appended error cell was
overwritten by the `new_row[4]` assignment, so the error value is dropped. -/
theorem claim10_error_cell_overwritten (row : List Cell) (text api tok : String)
    (svc : HttpOutcome) (r : RowResult) (h4 : row.length = 4)
    (hok : (processExcelRow row text api tok svc).result = Except.ok r) :
    (runDocRow (fun rw2 => (processExcelRow rw2 text api tok svc).result) row).length = 5 ∧
    (runDocRow (fun rw2 => (processExcelRow rw2 text api tok svc).result) row)[4]? =
      some (Cell.str r.clause_text) := by
  rw [runDocRow_sets _ _ _ (by omega) hok]
  constructor
  · simp [h4]
  · exact getElem?_set_lt _ _ _ (by simp [h4])

/-- Witness for C10 at a concrete 4-cell row with a successful extraction. -/
theorem claim10_error_cell_overwritten_witness :
    (runDocRow
        (fun rw2 => (processExcelRow rw2 "doc" "u" "k"
          (HttpOutcome.resp 200 (some (JVal.obj [(("data"), JVal.obj
            [(("outputs"), JVal.obj
              [(("Answer"), JVal.str
                ("```json\n\x7b\"内容概要\": \"S\", \"条款序号\": \"N\", \"条款原文\": \"T\"\x7d\n```"))])])])))).result)
        [Cell.str ("条"), Cell.str ("说"), Cell.null, Cell.null]).length = 5 ∧
    (runDocRow
        (fun rw2 => (processExcelRow rw2 "doc" "u" "k"
          (HttpOutcome.resp 200 (some (JVal.obj [(("data"), JVal.obj
            [(("outputs"), JVal.obj
              [(("Answer"), JVal.str
                ("```json\n\x7b\"内容概要\": \"S\", \"条款序号\": \"N\", \"条款原文\": \"T\"\x7d\n```"))])])])))).result)
        [Cell.str ("条"), Cell.str ("说"), Cell.null, Cell.null])[4]? =
      some (Cell.str ("T")) :=
  claim10_error_cell_overwritten _ _ _ _ _
    { summary := "S", clause_numbers := "N", clause_text := "T", error := "" }
    rfl (by rfl)

theorem docRowsAux_length (proc : Nat → List Cell → Except String RowResult) :
    ∀ (rows : List (List Cell)) (i : Nat), (docRowsAux proc i rows).length = rows.length := by
  intro rows
  induction rows with
  | nil => intro i; rfl
  | cons row rest ih =>
    intro i
    simp only [docRowsAux, List.length_cons, ih]

theorem docRowsAux_getElem? (proc : Nat → List Cell → Except String RowResult) :
    ∀ (rows : List (List Cell)) (i j : Nat),
      (docRowsAux proc i rows)[j]? = (rows[j]?).map (fun row => runDocRow (proc (i + j)) row) := by
  intro rows
  induction rows with
  | nil => intro i j; simp [docRowsAux]
  | cons row rest ih =>
    intro i j
    cases j with
    | zero => simp [docRowsAux]
    | succ n =>
      simp only [docRowsAux, List.getElem?_cons_succ]
      rw [ih (i + 1) n]
      have harith : i + 1 + n = i + (n + 1) := by omega
      rw [harith]

/-- C3 (amended): for every checklist and every combination of per-row network
outcomes, the output table's header is the original header plus an `error`
column and there are exactly as many data rows, in order, as input rows; for
every data row with *at least five* cells whose processing returns a
`RowResult`, the output row is the original row with positions 2, 3, 4
overwritten by summary, clause numbers and clause text, and the error value
appended as the final column.  (For 4-cell rows the appended error cell is
itself the position-4 cell and is overwritten — see the counterexample and
C10.) -/
theorem claim3_output_table_shape (hdr : List Cell) (rows : List (List Cell))
    (text api tok : String) (svc : Nat → HttpOutcome) :
    (outputTable hdr rows
        (fun i row => (processExcelRow row text api tok (svc i)).result)).head? =
      some (hdr ++ [Cell.str ("error")]) ∧
    (outputTable hdr rows
        (fun i row => (processExcelRow row text api tok (svc i)).result)).tail.length =
      rows.length ∧
    (∀ i row r, rows[i]? = some row → 5 ≤ row.length →
      (processExcelRow row text api tok (svc i)).result = Except.ok r →
      (outputTable hdr rows
          (fun i row => (processExcelRow row text api tok (svc i)).result)).tail[i]? =
        some ((((row.set 2 (Cell.str r.summary)).set 3 (Cell.str r.clause_numbers)).set 4
            (Cell.str r.clause_text)) ++ [Cell.str r.error])) := by
  refine ⟨rfl, ?_, ?_⟩
  · exact docRowsAux_length _ rows 0
  · intro i row r hrow h5 hok
    have ht : (outputTable hdr rows
        (fun i row => (processExcelRow row text api tok (svc i)).result)).tail =
        docRowsAux (fun i row => (processExcelRow row text api tok (svc i)).result) 0 rows := rfl
    rw [ht, docRowsAux_getElem?, hrow]
    simp only [Option.map, Nat.zero_add]
    rw [runDocRow_sets _ _ _ (by omega) hok]
    rw [set_append_lt _ _ _ _ (by omega)]
    rw [set_append_lt _ _ _ _ (by simp; omega)]
    rw [set_append_lt _ _ _ _ (by simp; omega)]

/-- Witness for C3 at a concrete 5-cell row with a failed call. -/
theorem claim3_output_table_shape_witness :
    (outputTable [Cell.str ("h")]
        [[Cell.str ("条"), Cell.str ("说"), Cell.null, Cell.null, Cell.null]]
        (fun i row =>
          (processExcelRow row "d" "u" "k"
            ((fun _ => HttpOutcome.connError) i)).result)).tail[0]? =
      some (((([Cell.str ("条"), Cell.str ("说"), Cell.null, Cell.null, Cell.null].set 2
          (Cell.str ("处理失败"))).set 3 (Cell.str ("处理失败"))).set 4
            (Cell.str ("处理失败"))) ++
        [Cell.str ("requests.exceptions.ConnectionError: connection failed")]) :=
  (claim3_output_table_shape [Cell.str ("h")]
      [[Cell.str ("条"), Cell.str ("说"), Cell.null, Cell.null, Cell.null]]
      "d" "u" "k" (fun _ => HttpOutcome.connError)).2.2 0
    [Cell.str ("条"), Cell.str ("说"), Cell.null, Cell.null, Cell.null]
    { summary := "处理失败", clause_numbers := "处理失败", clause_text := "处理失败",
      error := "requests.exceptions.ConnectionError: connection failed" }
    rfl (by decide) (by rfl)

/-- C3 counterexample: on a 4-cell data row whose extraction succeeds, the
persisted output row's final cell holds the clause text, not the appended
error value — refuting "the error value appended as the final column" for
such rows. -/
theorem claim3_four_cell_row_cex :
    ((outputTable [Cell.str ("h")]
        [[Cell.str ("条"), Cell.str ("说"), Cell.null, Cell.null]]
        (fun _ row => (processExcelRow row "d" "u" "k"
          (HttpOutcome.resp 200 (some (JVal.obj [(("data"), JVal.obj
            [(("outputs"), JVal.obj
              [(("Answer"), JVal.str
                ("```json\n\x7b\"内容概要\": \"S\", \"条款序号\": \"N\", \"条款原文\": \"T\"\x7d\n```"))])])])))).result)).tail)[0]?
      = some [Cell.str ("条"), Cell.str ("说"), Cell.str ("S"), Cell.str ("N"), Cell.str ("T")] ∧
    Cell.str ("T") ≠ Cell.str ("") := by
  constructor
  · rfl
  · decide

/-! ### Claim C6 — properties of the text normalisation -/

theorem dedupSp_cons₂ (a b : Char) (r : List Char) :
    dedupSp (a :: b :: r) =
      if (a == ' ' && b == ' ') = true then dedupSp (b :: r) else a :: dedupSp (b :: r) := rfl

theorem mem_dedupSp : ∀ (l : List Char) (c : Char), c ∈ dedupSp l → c ∈ l := by
  intro l
  induction l with
  | nil =>
    intro c h
    exact absurd h (by simp [dedupSp])
  | cons a rest ih =>
    intro c h
    cases rest with
    | nil => simpa [dedupSp] using h
    | cons b r2 =>
      rw [dedupSp_cons₂] at h
      by_cases hab : (a == ' ' && b == ' ') = true
      · rw [if_pos hab] at h
        exact List.mem_cons_of_mem _ (ih c h)
      · rw [if_neg hab] at h
        rcases List.mem_cons.mp h with rfl | h2
        · exact List.mem_cons_self _ _
        · exact List.mem_cons_of_mem _ (ih c h2)

theorem mem_stripSp (l : List Char) (c : Char) (h : c ∈ stripSp l) : c ∈ l := by
  unfold stripSp dropSp at h
  have h1 := (List.dropWhile_sublist (l := ((l.dropWhile (fun c => c == ' ')).reverse))
    (p := (fun c => c == ' '))).subset (List.mem_reverse.mp h)
  have h2 := List.mem_reverse.mp h1
  exact (List.dropWhile_sublist (l := l) (p := (fun c => c == ' '))).subset h2

theorem mem_cleanPara (cs : List Char) (c : Char) (h : c ∈ cleanPara cs) :
    c = ' ' ∨ isCtrlWs c = false := by
  unfold cleanPara at h
  have h1 : c ∈ cs.map (fun c => if isCtrlWs c then ' ' else c) :=
    mem_dedupSp _ _ (mem_stripSp _ _ h)
  rcases List.mem_map.mp h1 with ⟨a, _, ha⟩
  by_cases hca : isCtrlWs a
  · rw [if_pos hca] at ha
    exact .inl ha.symm
  · rw [if_neg hca] at ha
    right
    rw [← ha]
    simpa using hca

theorem cleanPara_ne_nl (cs : List Char) (c : Char) (h : c ∈ cleanPara cs) : c ≠ '\n' := by
  rcases mem_cleanPara cs c h with h1 | h2
  · rw [h1]
    decide
  · intro hc
    rw [hc] at h2
    exact absurd h2 (by decide)

theorem cleanPara_gt31 (cs : List Char) (c : Char) (h : c ∈ cleanPara cs) : 31 < c.toNat := by
  rcases mem_cleanPara cs c h with h1 | h2
  · rw [h1]
    decide
  · unfold isCtrlWs at h2
    have h3 : decide (c.toNat ≤ 31) = false := by
      cases hd : decide (c.toNat ≤ 31)
      · rfl
      · rw [hd] at h2
        exact absurd h2 (by simp)
    have := of_decide_eq_false h3
    omega

theorem mem_joinNl : ∀ (parts : List (List Char)) (c : Char), c ∈ joinNl parts →
    c = '\n' ∨ ∃ p ∈ parts, c ∈ p := by
  intro parts
  induction parts with
  | nil =>
    intro c h
    exact absurd h (by simp [joinNl])
  | cons p ps ih =>
    intro c h
    cases ps with
    | nil => exact .inr ⟨p, by simp, by simpa [joinNl] using h⟩
    | cons q rest =>
      have hj : joinNl (p :: q :: rest) = p ++ '\n' :: joinNl (q :: rest) := rfl
      rw [hj] at h
      rcases List.mem_append.mp h with h1 | h2
      · exact .inr ⟨p, by simp, h1⟩
      · rcases List.mem_cons.mp h2 with rfl | h3
        · exact .inl rfl
        · rcases ih c h3 with h4 | ⟨p2, hp2, hc2⟩
          · exact .inl h4
          · exact .inr ⟨p2, List.mem_cons_of_mem _ hp2, hc2⟩

theorem mem_flushP (k : Nat) (c : Char) (h : c ∈ flushP k) : c = ' ' ∨ c = '.' := by
  unfold flushP at h
  by_cases hk : 4 ≤ k
  · rw [if_pos hk] at h
    simp at h
    exact .inl h
  · rw [if_neg hk] at h
    exact .inr (List.eq_of_mem_replicate h)

theorem mem_repP : ∀ (l : List Char) (k : Nat) (c : Char), c ∈ repP k l →
    c = '.' ∨ c = ' ' ∨ c ∈ l := by
  intro l
  induction l with
  | nil =>
    intro k c h
    rcases mem_flushP k c (by simpa [repP] using h) with h1 | h2
    · exact .inr (.inl h1)
    · exact .inl h2
  | cons a rest ih =>
    intro k c h
    unfold repP at h
    by_cases ha : (a == '.') = true
    · rw [if_pos ha] at h
      rcases ih (k + 1) c h with h1 | h2 | h3
      · exact .inl h1
      · exact .inr (.inl h2)
      · exact .inr (.inr (List.mem_cons_of_mem _ h3))
    · rw [if_neg ha] at h
      rcases List.mem_append.mp h with h1 | h2
      · rcases mem_flushP _ _ h1 with h3 | h4
        · exact .inr (.inl h3)
        · exact .inl h4
      · rcases List.mem_cons.mp h2 with rfl | h3
        · exact .inr (.inr (List.mem_cons_self _ _))
        · rcases ih 0 c h3 with h4 | h5 | h6
          · exact .inl h4
          · exact .inr (.inl h5)
          · exact .inr (.inr (List.mem_cons_of_mem _ h6))

theorem repP_eq_nil : ∀ (l : List Char) (k : Nat), repP k l = [] → k = 0 ∧ l = [] := by
  intro l
  induction l with
  | nil =>
    intro k h
    unfold repP flushP at h
    by_cases hk : 4 ≤ k
    · rw [if_pos hk] at h
      exact absurd h (by simp)
    · rw [if_neg hk] at h
      exact ⟨by simpa using h, rfl⟩
  | cons a rest ih =>
    intro k h
    unfold repP at h
    by_cases ha : (a == '.') = true
    · rw [if_pos ha] at h
      exact absurd (ih (k + 1) h).1 (by omega)
    · rw [if_neg ha] at h
      exact absurd h (by simp)

theorem repP_nil (k : Nat) : repP k [] = flushP k := rfl

theorem repP_cons (k : Nat) (c : Char) (rest : List Char) :
    repP k (c :: rest) =
      if (c == '.') = true then repP (k + 1) rest else flushP k ++ c :: repP 0 rest := rfl

theorem repP_append_nl : ∀ (p : List Char), (∀ c ∈ p, c ≠ '\n') →
    ∀ (k : Nat) (rest : List Char),
      repP k (p ++ '\n' :: rest) = repP k p ++ '\n' :: repP 0 rest := by
  intro p
  induction p with
  | nil =>
    intro _ k rest
    simp only [List.nil_append]
    rw [repP_cons, if_neg (by decide), repP_nil]
  | cons c p' ih =>
    intro hnl k rest
    have hc' : ∀ x ∈ p', x ≠ '\n' := fun x hx => hnl x (List.mem_cons_of_mem _ hx)
    simp only [List.cons_append]
    rw [repP_cons, repP_cons]
    by_cases hcp : (c == '.') = true
    · rw [if_pos hcp, if_pos hcp]
      exact ih hc' (k + 1) rest
    · rw [if_neg hcp, if_neg hcp]
      rw [ih hc' 0 rest]
      simp [List.append_assoc]

theorem repP_joinNl : ∀ (parts : List (List Char)),
    (∀ p ∈ parts, ∀ c ∈ p, c ≠ '\n') →
    repP 0 (joinNl parts) = joinNl (parts.map (repP 0)) := by
  intro parts
  induction parts with
  | nil => intro _; rfl
  | cons p ps ih =>
    intro hf
    cases ps with
    | nil => rfl
    | cons q rest =>
      have hj : joinNl (p :: q :: rest) = p ++ '\n' :: joinNl (q :: rest) := rfl
      rw [hj, repP_append_nl p (hf p (by simp)) 0 (joinNl (q :: rest)),
        ih (fun p2 hp2 => hf p2 (List.mem_cons_of_mem _ hp2))]
      rfl

theorem collapseNl_nil (k : Nat) : collapseNl k [] = flushN k := rfl

theorem collapseNl_cons (k : Nat) (c : Char) (rest : List Char) :
    collapseNl k (c :: rest) =
      if (c == '\n') = true then collapseNl (k + 1) rest
      else flushN k ++ c :: collapseNl 0 rest := rfl

theorem collapseNl_nlfree_append : ∀ (p : List Char), (∀ c ∈ p, c ≠ '\n') →
    ∀ (q : List Char), collapseNl 0 (p ++ q) = p ++ collapseNl 0 q := by
  intro p
  induction p with
  | nil => intro _ q; simp
  | cons c p' ih =>
    intro hnl q
    have hc : c ≠ '\n' := hnl c (List.mem_cons_self _ _)
    simp only [List.cons_append]
    rw [collapseNl_cons, if_neg (by simpa using hc)]
    rw [ih (fun x hx => hnl x (List.mem_cons_of_mem _ hx)) q]
    rfl

theorem collapseNl_one (d : Char) (hd : d ≠ '\n') (x : List Char) :
    collapseNl 1 (d :: x) = '\n' :: collapseNl 0 (d :: x) := by
  rw [collapseNl_cons, collapseNl_cons, if_neg (by simpa using hd), if_neg (by simpa using hd)]
  rfl

theorem collapseNl_joinNl_id : ∀ (parts : List (List Char)),
    (∀ p ∈ parts, p ≠ [] ∧ ∀ c ∈ p, c ≠ '\n') →
    collapseNl 0 (joinNl parts) = joinNl parts := by
  intro parts
  induction parts with
  | nil => intro _; rfl
  | cons p ps ih =>
    intro hf
    cases ps with
    | nil =>
      have hnl := (hf p (by simp)).2
      have h1 := collapseNl_nlfree_append p hnl []
      rw [List.append_nil] at h1
      show collapseNl 0 p = p
      rw [h1]
      exact List.append_nil p
    | cons q rest =>
      have hj : joinNl (p :: q :: rest) = p ++ '\n' :: joinNl (q :: rest) := rfl
      rw [hj, collapseNl_nlfree_append p (hf p (by simp)).2]
      congr 1
      rw [collapseNl_cons, if_pos (by decide)]
      obtain ⟨hqne, hqnl⟩ := hf q (by simp)
      cases q with
      | nil => exact absurd rfl hqne
      | cons d q' =>
        have hd : d ≠ '\n' := hqnl d (List.mem_cons_self _ _)
        have hih := ih (fun p2 hp2 => hf p2 (List.mem_cons_of_mem _ hp2))
        cases rest with
        | nil =>
          rw [show joinNl [d :: q'] = d :: q' from rfl]
          rw [collapseNl_one d hd]
          rw [show joinNl [d :: q'] = d :: q' from rfl] at hih
          rw [hih]
        | cons r2 rest2 =>
          rw [show joinNl ((d :: q') :: r2 :: rest2) =
            d :: (q' ++ '\n' :: joinNl (r2 :: rest2)) from rfl]
          rw [collapseNl_one d hd]
          rw [show joinNl ((d :: q') :: r2 :: rest2) =
            d :: (q' ++ '\n' :: joinNl (r2 :: rest2)) from rfl] at hih
          rw [hih]

theorem scanNl2_cons (b : Bool) (c : Char) (rest : List Char) :
    scanNl2 b (c :: rest) =
      if (c == '\n') = true then (!b && scanNl2 true rest) else scanNl2 false rest := rfl

theorem scanNl2_nlfree_append : ∀ (p : List Char), p ≠ [] → (∀ c ∈ p, c ≠ '\n') →
    ∀ (b : Bool) (q : List Char), scanNl2 b (p ++ q) = scanNl2 false q := by
  intro p
  induction p with
  | nil =>
    intro h
    exact absurd rfl h
  | cons c p' ih =>
    intro _ hnl b q
    simp only [List.cons_append]
    rw [scanNl2_cons, if_neg (by simpa using hnl c (List.mem_cons_self _ _))]
    cases p' with
    | nil => simp only [List.nil_append]
    | cons d p2 =>
      exact ih (by simp) (fun x hx => hnl x (List.mem_cons_of_mem _ hx)) false q

theorem scanNl2_joinNl : ∀ (parts : List (List Char)),
    (∀ p ∈ parts, p ≠ [] ∧ ∀ c ∈ p, c ≠ '\n') →
    scanNl2 false (joinNl parts) = true := by
  intro parts
  induction parts with
  | nil => intro _; rfl
  | cons p ps ih =>
    intro hf
    obtain ⟨hne, hnl⟩ := hf p (by simp)
    cases ps with
    | nil =>
      have h1 := scanNl2_nlfree_append p hne hnl false []
      rw [List.append_nil] at h1
      show scanNl2 false p = true
      rw [h1]
      rfl
    | cons q rest =>
      rw [show joinNl (p :: q :: rest) = p ++ '\n' :: joinNl (q :: rest) from rfl]
      rw [scanNl2_nlfree_append p hne hnl false]
      rw [scanNl2_cons, if_pos (by decide)]
      simp only [Bool.not_false, Bool.true_and]
      obtain ⟨hqne, hqnl⟩ := hf q (by simp)
      have hih := ih (fun p2 hp2 => hf p2 (List.mem_cons_of_mem _ hp2))
      cases rest with
      | nil =>
        show scanNl2 true (joinNl [q]) = true
        rw [show joinNl [q] = q from rfl]
        have h2 := scanNl2_nlfree_append q hqne hqnl true []
        rw [List.append_nil] at h2
        rw [h2]
        rfl
      | cons r2 rest2 =>
        rw [show joinNl (q :: r2 :: rest2) = q ++ '\n' :: joinNl (r2 :: rest2) from rfl]
        rw [scanNl2_nlfree_append q hqne hqnl true]
        rw [show joinNl (q :: r2 :: rest2) = q ++ '\n' :: joinNl (r2 :: rest2) from rfl] at hih
        rw [scanNl2_nlfree_append q hqne hqnl false] at hih
        exact hih

theorem scanNlRun_cons (k : Nat) (c : Char) (rest : List Char) :
    scanNlRun k (c :: rest) =
      if (c == '\n') = true then (decide (k + 1 ≤ 2) && scanNlRun (k + 1) rest)
      else scanNlRun 0 rest := rfl

theorem scanNl2_to_scanNlRun : ∀ (l : List Char),
    (scanNl2 false l = true → scanNlRun 0 l = true) ∧
    (scanNl2 true l = true → scanNlRun 1 l = true) := by
  intro l
  induction l with
  | nil => exact ⟨fun _ => rfl, fun _ => rfl⟩
  | cons c rest ih =>
    by_cases hc : (c == '\n') = true
    · constructor
      · intro h
        rw [scanNl2_cons, if_pos hc] at h
        simp only [Bool.not_false, Bool.true_and] at h
        rw [scanNlRun_cons, if_pos hc]
        rw [show (decide (0 + 1 ≤ 2)) = true from rfl, Bool.true_and]
        exact ih.2 h
      · intro h
        rw [scanNl2_cons, if_pos hc] at h
        simp only [Bool.not_true, Bool.false_and] at h
        exact absurd h (by simp)
    · constructor <;> intro h
      · rw [scanNl2_cons, if_neg hc] at h
        rw [scanNlRun_cons, if_neg hc]
        exact ih.1 h
      · rw [scanNl2_cons, if_neg hc] at h
        rw [scanNlRun_cons, if_neg hc]
        exact ih.1 h

theorem scanPRun_cons (k : Nat) (c : Char) (rest : List Char) :
    scanPRun k (c :: rest) =
      if (c == '.') = true then (decide (k + 1 ≤ 3) && scanPRun (k + 1) rest)
      else scanPRun 0 rest := rfl

theorem scanPRun_flushP (k : Nat) : scanPRun 0 (flushP k) = true := by
  match k with
  | 0 => rfl
  | 1 => rfl
  | 2 => rfl
  | 3 => rfl
  | k + 4 =>
    have hf : flushP (k + 4) = [' '] := by
      unfold flushP
      rw [if_pos (by omega)]
    rw [hf]
    rfl

theorem scanPRun_flushP_append (k : Nat) (c : Char) (hc : (c == '.') = false)
    (X : List Char) : scanPRun 0 (flushP k ++ c :: X) = scanPRun 0 X := by
  match k with
  | 0 =>
    show scanPRun 0 (c :: X) = scanPRun 0 X
    rw [scanPRun_cons, if_neg (by simp [hc])]
  | 1 =>
    show scanPRun 0 ('.' :: c :: X) = scanPRun 0 X
    rw [scanPRun_cons, if_pos (by decide), show (decide (0 + 1 ≤ 3)) = true from rfl,
      Bool.true_and]
    rw [scanPRun_cons, if_neg (by simp [hc])]
  | 2 =>
    show scanPRun 0 ('.' :: '.' :: c :: X) = scanPRun 0 X
    rw [scanPRun_cons, if_pos (by decide), show (decide (0 + 1 ≤ 3)) = true from rfl,
      Bool.true_and]
    rw [scanPRun_cons, if_pos (by decide), show (decide (0 + 1 + 1 ≤ 3)) = true from rfl,
      Bool.true_and]
    rw [scanPRun_cons, if_neg (by simp [hc])]
  | 3 =>
    show scanPRun 0 ('.' :: '.' :: '.' :: c :: X) = scanPRun 0 X
    rw [scanPRun_cons, if_pos (by decide), show (decide (0 + 1 ≤ 3)) = true from rfl,
      Bool.true_and]
    rw [scanPRun_cons, if_pos (by decide), show (decide (0 + 1 + 1 ≤ 3)) = true from rfl,
      Bool.true_and]
    rw [scanPRun_cons, if_pos (by decide), show (decide (0 + 1 + 1 + 1 ≤ 3)) = true from rfl,
      Bool.true_and]
    rw [scanPRun_cons, if_neg (by simp [hc])]
  | k + 4 =>
    have hf : flushP (k + 4) = [' '] := by
      unfold flushP
      rw [if_pos (by omega)]
    rw [hf]
    show scanPRun 0 ([' '] ++ c :: X) = scanPRun 0 X
    show scanPRun 0 (' ' :: c :: X) = scanPRun 0 X
    rw [scanPRun_cons, if_neg (by decide)]
    rw [scanPRun_cons, if_neg (by simp [hc])]

theorem scanPRun_repP : ∀ (l : List Char) (k : Nat), scanPRun 0 (repP k l) = true := by
  intro l
  induction l with
  | nil =>
    intro k
    rw [repP_nil]
    exact scanPRun_flushP k
  | cons c rest ih =>
    intro k
    rw [repP_cons]
    by_cases hc : (c == '.') = true
    · rw [if_pos hc]
      exact ih (k + 1)
    · rw [if_neg hc]
      rw [scanPRun_flushP_append k c (by simpa using hc)]
      exact ih 0

theorem cleanedParas_facts (paras : List String) :
    ∀ p ∈ cleanedParas paras, p ≠ [] ∧ (∀ c ∈ p, c ≠ '\n') ∧ (∀ c ∈ p, 31 < c.toNat) := by
  intro p hp
  unfold cleanedParas at hp
  obtain ⟨hm, hne⟩ := List.mem_filter.mp hp
  rcases List.mem_map.mp hm with ⟨s, _, hs⟩
  refine ⟨?_, ?_, ?_⟩
  · intro h0
    rw [h0] at hne
    exact absurd hne (by simp)
  · intro c hc
    rw [← hs] at hc
    exact cleanPara_ne_nl _ _ hc
  · intro c hc
    rw [← hs] at hc
    exact cleanPara_gt31 _ _ hc

theorem repP_parts_facts (parts : List (List Char))
    (hf : ∀ p ∈ parts, p ≠ [] ∧ ∀ c ∈ p, c ≠ '\n') :
    ∀ p2 ∈ parts.map (repP 0), p2 ≠ [] ∧ ∀ c ∈ p2, c ≠ '\n' := by
  intro p2 hp2
  rcases List.mem_map.mp hp2 with ⟨p, hp, hpe⟩
  obtain ⟨hne, hnl⟩ := hf p hp
  constructor
  · intro h0
    rw [← hpe] at h0
    exact hne (repP_eq_nil p 0 h0).2
  · intro c hc
    rw [← hpe] at hc
    rcases mem_repP p 0 c hc with h1 | h2 | h3
    · rw [h1]
      decide
    · rw [h2]
      decide
    · exact hnl c h3

theorem readWordText_eq_repP (paras : List String)
    (hf2 : ∀ p ∈ cleanedParas paras, p ≠ [] ∧ ∀ c ∈ p, c ≠ '\n') :
    (readWordText paras).data = repP 0 (joinNl (cleanedParas paras)) := by
  show collapseNl 0 (repP 0 (joinNl (cleanedParas paras))) =
    repP 0 (joinNl (cleanedParas paras))
  rw [repP_joinNl _ (fun p hp c hc => (hf2 p hp).2 c hc)]
  exact collapseNl_joinNl_id _ (repP_parts_facts _ hf2)

theorem cleanedParas_filter : ∀ (paras : List String),
    cleanedParas (paras.filter (fun p => !(cleanPara p.data).isEmpty)) = cleanedParas paras := by
  intro paras
  induction paras with
  | nil => rfl
  | cons p rest ih =>
    by_cases hp : (!(cleanPara p.data).isEmpty) = true
    · have hfc : (p :: rest).filter (fun p => !(cleanPara p.data).isEmpty) =
          p :: rest.filter (fun p => !(cleanPara p.data).isEmpty) := by
        rw [List.filter_cons, if_pos hp]
      rw [hfc]
      have e1 : ∀ (l : List String),
          cleanedParas (p :: l) = cleanPara p.data :: cleanedParas l := by
        intro l
        unfold cleanedParas
        simp only [List.map_cons, List.filter_cons]
        rw [if_pos hp]
      rw [e1, e1, ih]
    · have hfc : (p :: rest).filter (fun p => !(cleanPara p.data).isEmpty) =
          rest.filter (fun p => !(cleanPara p.data).isEmpty) := by
        rw [List.filter_cons, if_neg hp]
      rw [hfc, ih]
      unfold cleanedParas
      simp only [List.map_cons, List.filter_cons]
      rw [if_neg hp]

/-- C6 (amended): for every paragraph sequence, the normalized text contains no
control character *other than the newline separators* (the `'\n'` used to
join paragraphs is itself U+000A); it has no run of three or more newlines
and no run of four or more periods; and paragraphs that clean to the empty
string are discarded — filtering them away first changes nothing. -/
theorem claim6_normalizer (paras : List String) :
    (∀ c ∈ (readWordText paras).data, c.toNat ≤ 31 → c = '\n') ∧
    noNl3 (readWordText paras).data = true ∧
    noP4 (readWordText paras).data = true ∧
    readWordText paras = readWordText (paras.filter (fun p => !(cleanPara p.data).isEmpty)) := by
  have hfacts := cleanedParas_facts paras
  have hf2 : ∀ p ∈ cleanedParas paras, p ≠ [] ∧ ∀ c ∈ p, c ≠ '\n' :=
    fun p hp => ⟨(hfacts p hp).1, (hfacts p hp).2.1⟩
  have heq := readWordText_eq_repP paras hf2
  refine ⟨?_, ?_, ?_, ?_⟩
  · intro c hc hle
    rw [heq] at hc
    rcases mem_repP _ _ _ hc with h1 | h2 | h3
    · rw [h1] at hle
      exact absurd hle (by decide)
    · rw [h2] at hle
      exact absurd hle (by decide)
    · rcases mem_joinNl _ _ h3 with h4 | ⟨p, hp, hcp⟩
      · exact h4
      · exact absurd hle (by have := (hfacts p hp).2.2 c hcp; omega)
  · unfold noNl3
    rw [heq, repP_joinNl _ (fun p hp c hc => (hf2 p hp).2 c hc)]
    exact (scanNl2_to_scanNlRun _).1 (scanNl2_joinNl _ (repP_parts_facts _ hf2))
  · unfold noP4
    rw [heq]
    exact scanPRun_repP _ 0
  · unfold readWordText
    rw [cleanedParas_filter]

/-- Witness for C6 at a concrete paragraph list. -/
theorem claim6_normalizer_witness :
    ('\x00') ∉ (readWordText [("ab")]).data := by
  intro h
  have h2 := (claim6_normalizer [("ab")]).1 ('\x00') h (by decide)
  exact absurd h2 (by decide)

/-- C6 counterexample: with two surviving paragraphs the output contains the
newline separator, which lies in the control range U+0000–U+001F — refuting
"the output contains no control characters (U+0000–U+001F)". -/
theorem claim6_control_char_cex :
    '\n' ∈ (readWordText [("a"), ("b")]).data ∧ ('\n').toNat ≤ 31 := by
  decide
